import Mathlib

/-!
Verification of the temporal deformable attention operator
(projects/mmdet3d_plugin/models/attns/temporal_self_attention_v2.py,
class TemporalSelfAttentionV2).

The development shallowly embeds the pieces of the module that the
properties below are about:

* the constructor validation logic (embed_dims / num_heads, the
  power-of-two advisory) over the integers, with Python semantics for
  the modulo-by-zero and the negative-input guard of _is_power_of_2;
* the attention-weight softmax stage (linear logits viewed to the
  combined level-point axis, softmax over that axis, viewed back);
* the sampling-location formulas for 2-component and 4-component
  reference points, over exact rationals;
* the validity mask and the mask-weighted aggregation of per-queue-slot
  outputs;
* the queue-normalisation (concatenation / padding) step over nested
  lists mirroring the tensor slicing;
* a shape-level interpreter of the whole forward pass, with a guard for
  every shape condition the underlying tensor library enforces, used to
  settle the shape round-trip and fail-fast properties;
* a dataflow-level transcription of the forward pass over abstract
  tensor operations, used to settle the residual-capture property.

Tensor values are exact rationals; the exponential inside softmax is
abstracted as an arbitrary strictly positive function, which is the only
property of the exponential the normalisation invariant uses.
-/

/-! ### Configuration (constructor arguments of TemporalSelfAttentionV2) -/

structure AttnCfg where
  embed_dims : ℕ
  num_heads : ℕ
  num_levels : ℕ
  num_points : ℕ
  num_bev_queue : ℕ
deriving DecidableEq, Repr

/-! ### Constructor validation (lines 51-102 of the source)

Python integers are modelled by ℤ.  `embed_dims % num_heads` raises
ZeroDivisionError when `num_heads = 0`; otherwise the zero test of the
Python modulo agrees with divisibility.  `dim_per_head` is the Python
floor division `embed_dims // num_heads`, i.e. `Int.fdiv`.  The helper
`_is_power_of_2` raises ValueError on negative input and otherwise
returns `(n and (n - 1) == 0) and n != 0`.  The result Bool of a
successful construction records whether the non-fatal advisory warning
was emitted. -/

def isPowerOfTwoCheck (n : ℤ) : Except String Bool :=
  if n < 0 then
    .error "ValueError: invalid input for power-of-two check"
  else
    .ok (decide (n ≠ 0) && decide (Nat.land n.toNat (n.toNat - 1) = 0))

def initTemporalSelfAttentionV2 (embed_dims num_heads : ℤ) : Except String Bool :=
  if num_heads = 0 then
    .error "ZeroDivisionError: integer modulo by zero"
  else if embed_dims % num_heads ≠ 0 then
    .error "ValueError: embed_dims must be divisible by num_heads"
  else
    match isPowerOfTwoCheck (Int.fdiv embed_dims num_heads) with
    | .error msg => .error msg
    | .ok p => .ok (!p)

/-! ### Attention-weight softmax stage (lines 225-233)

The linear layer output is an arbitrary logits vector over the combined
(level, point) axis of size `nl * np`; `softmaxLast` is the softmax over
that axis with an abstract exponential `ef` (torch instantiates
`ef = Real.exp`, which is strictly positive; positivity is the only fact
the normalisation uses).  `attnView6` is the view from the combined axis
back to separate (level, point) axes, row-major as in the source. -/

def softmaxLast (ef : ℚ → ℚ) {n : ℕ} (x : Fin n → ℚ) : Fin n → ℚ :=
  fun i => ef (x i) / ∑ j, ef (x j)

def attnView6 (nl np : ℕ) (w : Fin (nl * np) → ℚ) (l : Fin nl) (p : Fin np) : ℚ :=
  w ⟨(l : ℕ) * np + (p : ℕ), by
    have hl := l.isLt
    have hp := p.isLt
    calc (l : ℕ) * np + (p : ℕ) < (l : ℕ) * np + np := by omega
    _ ≤ nl * np := by
        have : (l : ℕ) + 1 ≤ nl := hl
        calc (l : ℕ) * np + np = ((l : ℕ) + 1) * np := by ring
        _ ≤ nl * np := Nat.mul_le_mul_right np this⟩

/-! ### Sampling locations (lines 240-254)

`spatialShapes l = (h_l, w_l)` follows the documented layout of the
`spatial_shapes` tensor (last dimension is (h, w)).  The source builds
`offset_normalizer = stack([spatial_shapes[..., 1], spatial_shapes[..., 0]], -1)`,
i.e. the pair `(w_l, h_l)`.  Indices for batch slot, query, head, level
and point are plain naturals; coordinates are pairs with `.1` the x
component and `.2` the y component, matching the last axis of the
tensors. -/

def offsetNormalizer (spatialShapes : ℕ → ℚ × ℚ) (l : ℕ) : ℚ × ℚ :=
  ((spatialShapes l).2, (spatialShapes l).1)

def samplingLocations2 (refp : ℕ → ℕ → ℕ → ℚ × ℚ)
    (off : ℕ → ℕ → ℕ → ℕ → ℕ → ℚ × ℚ) (spatialShapes : ℕ → ℚ × ℚ)
    (b q h l p : ℕ) : ℚ × ℚ :=
  ((refp b q l).1 + (off b q h l p).1 / (offsetNormalizer spatialShapes l).1,
   (refp b q l).2 + (off b q h l p).2 / (offsetNormalizer spatialShapes l).2)

/-- Reference points in box form: components (x, y, w, h). -/
def samplingLocations4 (npts : ℕ) (refp : ℕ → ℕ → ℕ → ℚ × ℚ × ℚ × ℚ)
    (off : ℕ → ℕ → ℕ → ℕ → ℕ → ℚ × ℚ)
    (b q h l p : ℕ) : ℚ × ℚ :=
  ((refp b q l).1 + (off b q h l p).1 / (npts : ℚ) * (refp b q l).2.2.1 * 0.5,
   (refp b q l).2.1 + (off b q h l p).2 / (npts : ℚ) * (refp b q l).2.2.2 * 0.5)

/-- Modelled from the spec: the 2-component location formula as the spec
words it, `location = reference_point + offset / level_extent` with
`level_extent = (width_l, height_l)` in (width, height) order. -/
def samplingLocationsSpec2 (refp : ℕ → ℕ → ℕ → ℚ × ℚ)
    (off : ℕ → ℕ → ℕ → ℕ → ℕ → ℚ × ℚ) (spatialShapes : ℕ → ℚ × ℚ)
    (b q h l p : ℕ) : ℚ × ℚ :=
  let widthL := (spatialShapes l).2
  let heightL := (spatialShapes l).1
  ((refp b q l).1 + (off b q h l p).1 / widthL,
   (refp b q l).2 + (off b q h l p).2 / heightL)

/-- Modelled from the spec: the 4-component location formula as the spec
words it, `location = reference_point_xy + (offset / num_points) * reference_point_wh * 0.5`. -/
def samplingLocationsSpec4 (npts : ℕ) (refp : ℕ → ℕ → ℕ → ℚ × ℚ × ℚ × ℚ)
    (off : ℕ → ℕ → ℕ → ℕ → ℕ → ℚ × ℚ)
    (b q h l p : ℕ) : ℚ × ℚ :=
  let refXY : ℚ × ℚ := ((refp b q l).1, (refp b q l).2.1)
  let refWH : ℚ × ℚ := ((refp b q l).2.2.1, (refp b q l).2.2.2)
  (refXY.1 + (off b q h l p).1 / (npts : ℚ) * refWH.1 * 0.5,
   refXY.2 + (off b q h l p).2 / (npts : ℚ) * refWH.2 * 0.5)

/-! ### Validity mask and per-queue-slot aggregation (lines 207-208, 268-270)

`bevMask` is `value.new_ones([num_bev_queue])` with the first `lack`
entries assigned 0.  `combineOutputs` is the aggregation
`(output.permute(1, 2, 0) * mask).sum(-1) / mask.sum()` written
per element: query and embedding indices are plain naturals, the queue
slot is summed over. -/

def bevMask (nbq lack : ℕ) (s : Fin nbq) : ℚ :=
  if (s : ℕ) < lack then 0 else 1

def combineOutputs (nbq lack : ℕ) (out : Fin nbq → ℕ → ℕ → ℚ) (q i : ℕ) : ℚ :=
  (∑ s, out s q i * bevMask nbq lack s) / (∑ s, bevMask nbq lack s)

/-! ### Queue normalisation over nested lists (lines 194-204)

A batch of tensors is a list of slices; a slice is a list of rows; a row
is a list of rationals.  `catLastAxis` is `torch.cat([a, b], -1)` (rows
concatenated; like the tensor op it is only meaningful when the outer
dimensions agree, which the theorems assume).  `sliceFirstRepeat lack v`
is `value[0:1].repeat(lack, 1, 1)`, `padBatchZeros` is
`torch.cat([value.new_zeros([lack, num_value, dims]), value], 0)` and
`padRefZeros` the analogous padding of the reference points. -/

def catLastAxis (a b : List (List (List ℚ))) : List (List (List ℚ)) :=
  List.zipWith (fun sa sb => List.zipWith (fun ra rb => ra ++ rb) sa sb) a b

def sliceFirstRepeat (lack : ℕ) (v : List (List (List ℚ))) : List (List (List ℚ)) :=
  (List.replicate lack (v.take 1)).flatten

def padQueryQueue (nbq : ℕ) (v q : List (List (List ℚ))) : List (List (List ℚ)) :=
  if (nbq : ℤ) - (v.length : ℤ) = 0 ∧ 1 < v.length then
    catLastAxis v.dropLast q
  else if (nbq : ℤ) - (v.length : ℤ) = 1 then
    catLastAxis (sliceFirstRepeat (nbq - v.length) v) q
  else
    q

def zeros2 (r c : ℕ) : List (List ℚ) :=
  List.replicate r (List.replicate c (0 : ℚ))

def padBatchZeros (lack nv d : ℕ) (v : List (List (List ℚ))) : List (List (List ℚ)) :=
  List.replicate lack (zeros2 nv d) ++ v

def padRefZeros (lack : ℕ) (z : List (List (List ℚ)))
    (r : List (List (List (List ℚ)))) : List (List (List (List ℚ))) :=
  List.replicate lack z ++ r

/-! ### Shape-level interpreter of the forward pass (lines 176-278)

Shapes are tuples of naturals.  Every tensor operation of the forward
pass is modelled by its shape semantics, with an explicit guard for
every condition whose violation makes the tensor library raise:
broadcasting (equal or 1 per dimension), concatenation (all other
dimensions equal), `new_zeros` (no negative size), linear layers
(matching last dimension), `reshape` with an inferred dimension
(divisibility, inferable), `view` (matching element count), the 3x3
convolution (matching channel count), indexing `spatial_shapes[0]`
(non-empty), the Python assert of line 190, the reference-point
last-dimension branch, and the shape contract of the external
multi-scale deformable sampling primitive (slot-expanded batch equal to
the padded value batch, level count equal to the number of spatial
shapes).  The result is the shape of the returned tensor, or the error
raised. -/

abbrev Shape3 := ℕ × ℕ × ℕ
abbrev Shape4 := ℕ × ℕ × ℕ × ℕ
abbrev Shape6 := ℕ × ℕ × ℕ × ℕ × ℕ × ℕ

def perm102 (s : Shape3) : Shape3 := (s.2.1, s.1, s.2.2)

def broadcastDim (a b : ℕ) : Option ℕ :=
  if a = b then some a
  else if a = 1 then some b
  else if b = 1 then some a
  else none

def broadcast3 (s t : Shape3) : Option Shape3 :=
  match broadcastDim s.1 t.1, broadcastDim s.2.1 t.2.1, broadcastDim s.2.2 t.2.2 with
  | some a, some b, some c => some (a, b, c)
  | _, _, _ => none

def broadcast6 (s t : Shape6) : Option Shape6 :=
  match broadcastDim s.1 t.1, broadcastDim s.2.1 t.2.1,
      broadcastDim s.2.2.1 t.2.2.1, broadcastDim s.2.2.2.1 t.2.2.2.1,
      broadcastDim s.2.2.2.2.1 t.2.2.2.2.1, broadcastDim s.2.2.2.2.2 t.2.2.2.2.2 with
  | some a, some b, some c, some d, some f, some g => some (a, b, c, d, f, g)
  | _, _, _, _, _, _ => none

def forwardShape (c : AttnCfg) (batch_first : Bool)
    (query : Shape3) (value identity query_pos : Option Shape3)
    (key_padding_mask : Option (ℕ × ℕ))
    (reference_points : Shape4) (spatial_shapes : List (ℕ × ℕ)) :
    Except String Shape3 :=
  let e := c.embed_dims
  let nh := c.num_heads
  let nl := c.num_levels
  let npts := c.num_points
  let nbq := c.num_bev_queue
  -- line 176: value defaults to query; line 179: identity defaults to query
  let value0 := value.getD query
  let identity0 := identity.getD query
  -- lines 181-182: query = query + query_pos (broadcast addition)
  match (match query_pos with
         | some p => broadcast3 query p
         | none => some query) with
  | none => .error "RuntimeError: query_pos is not broadcastable to query"
  | some query1 =>
  -- lines 183-186: to (bs, num_query, embed) layout
  let query2 := if batch_first then query1 else perm102 query1
  let value1 := if batch_first then value0 else perm102 value0
  let bs := query2.1
  let nq := query2.2.1
  let qe := query2.2.2
  let vbs := value1.1
  let nv := value1.2.1
  let d := value1.2.2
  -- line 190: assert on the level sizes
  if (spatial_shapes.map fun p => p.1 * p.2).sum ≠ nv then
    .error "AssertionError: spatial shapes do not sum to num_value"
  else
  -- lines 192-198: lack and the query concatenation; the result keeps
  -- (bs, nq) and only the width can change
  match (if nbq = vbs ∧ 1 < vbs then
           if vbs - 1 = bs ∧ nv = nq then some (d + qe) else none
         else if vbs + 1 = nbq then
           if min vbs 1 = bs ∧ nv = nq then some (d + qe) else none
         else some qe) with
  | none => .error "RuntimeError: torch.cat shape mismatch on query"
  | some dims2 =>
  -- lines 201-204: zero padding of value and reference points
  if nbq < vbs then
    .error "RuntimeError: new_zeros with negative batch dimension"
  else
  let lack := nbq - vbs
  let refB1 := lack + reference_points.1
  let cdim := reference_points.2.2.2
  -- line 209: value_proj is Linear(embed_dims, embed_dims)
  if d ≠ e then
    .error "RuntimeError: value_proj expects last dimension embed_dims"
  else
  -- lines 211-212: masked_fill with key_padding_mask[..., None]
  if (match key_padding_mask with
      | some m => decide ((m.1 = nbq ∨ m.1 = 1) ∧ (m.2 = nv ∨ m.2 = 1))
      | none => true) = false then
    .error "RuntimeError: key_padding_mask not broadcastable to value"
  else
  -- line 214: reshape (num_bev_queue, num_value, num_heads, -1)
  if nbq * nv * nh = 0 then
    .error "RuntimeError: cannot reshape, unspecified dimension"
  else if (nbq * nv * e) % (nbq * nv * nh) ≠ 0 then
    .error "RuntimeError: reshape size mismatch"
  else
  -- lines 217-218: query to spatial grid of the first level
  match spatial_shapes with
  | [] => .error "IndexError: spatial_shapes is empty"
  | (h0, w0) :: _ =>
  if nq ≠ h0 * w0 then
    .error "RuntimeError: view size mismatch on query"
  else
  -- lines 219-238: conv / linear / softmax / views; the convolution has
  -- in_channels embed_dims * num_bev_queue, everything else follows
  if dims2 ≠ e * nbq then
    .error "RuntimeError: conv2d channel mismatch"
  else
  let sb := bs * nbq
  -- lines 240-254: sampling locations
  match (if cdim = 2 then
           match broadcastDim nl spatial_shapes.length with
           | none => .error "RuntimeError: offset_normalizer not broadcastable"
           | some nl2 =>
             match broadcast6 (refB1, reference_points.2.1, 1, reference_points.2.2.1, 1, 2)
                 (sb, nq, nh, nl2, npts, 2) with
             | none => .error "RuntimeError: sampling_locations not broadcastable"
             | some L => .ok L
         else if cdim = 4 then
           match broadcast6 (refB1, reference_points.2.1, 1, reference_points.2.2.1, 1, 2)
               (sb, nq, nh, nl, npts, 2) with
           | none => .error "RuntimeError: sampling_locations not broadcastable"
           | some L => .ok L
         else
           (.error "ValueError: last dim of reference_points must be 2 or 4"
             : Except String Shape6)) with
  | .error msg => .error msg
  | .ok L =>
  -- lines 255-267: the external sampling primitive contract
  if L ≠ (sb, nq, nh, nl, npts, 2) ∨ sb ≠ nbq ∨ nl ≠ spatial_shapes.length then
    .error "RuntimeError: deformable attention primitive shape mismatch"
  else
  -- lines 268-272: mask-weighted combination (num_bev_queue, nq, e) to
  -- (1, nq, e), then output_proj
  let out3 : Shape3 := (1, nq, e)
  -- lines 274-276: back to the caller layout
  let out4 := if batch_first then out3 else perm102 out3
  -- line 278: dropout(output) + identity (broadcast addition)
  match broadcast3 out4 identity0 with
  | none => .error "RuntimeError: identity not broadcastable to output"
  | some fin => .ok fin

/-- The `num_value` of a forward invocation: dimension 1 of the value
tensor after the default to query (line 176) and the layout permute
(line 186), i.e. `value.shape` in line 189. -/
def numValueOf (bf : Bool) (query : Shape3) (value : Option Shape3) : ℕ :=
  (if bf then value.getD query else perm102 (value.getD query)).2.1

/-! ### Dataflow-level transcription of the forward pass (lines 176-278)

The operator owns learned modules (value_proj, output_proj, the offset
convolution, the weight linear layer, dropout) and calls library tensor
operations and the external sampling primitive; for the residual-capture
property only the dataflow matters, so all of them are abstracted as
fields of `TensorOps` over an abstract tensor type, and
`forwardDataflow` composes them exactly as the source does, line by
line.  `offsetsWeightsOf` is the (sampling offsets, attention weights)
pair as computed by the predictor stage from the same inputs. -/

structure TensorOps (T : Type) where
  add : T → T → T
  permute102 : T → T
  batchSize : T → ℕ
  spatialSumMatches : T → T → Bool
  catLast : T → T → T
  dropLastBatch : T → T
  firstSliceRepeat : ℤ → T → T
  newZerosLikeBatch : ℤ → T → T
  newZerosLikeRef : ℤ → T → T
  catBatch : T → T → T
  newMask : ℕ → ℤ → T
  valueProj : T → T
  maskedFill : T → T → T
  viewValueHeads : T → T
  queryToSpatial : T → T → T
  samplingOffsetsConv : T → T
  offsetsPermuteView : T → T
  spatialToFlat : T → T
  attentionWeightsLinear : T → T
  softmaxMinus1 : T → T
  weightsView6 : T → T
  weightsQueueMerge : T → T
  offsetsQueueMerge : T → T
  lastDim : T → ℕ
  stackNormalizer : T → T
  locationsFrom2 : T → T → T → T
  locationsFrom4 : T → T → T
  msDeformAttn : T → T → T → T → T → T
  combineMask : T → T → T
  outputProj : T → T
  dropoutLayer : T → T

def forwardDataflow {T : Type} (nbq : ℕ) (batch_first : Bool) (o : TensorOps T)
    (query : T) (value identity query_pos key_padding_mask : Option T)
    (reference_points spatial_shapes level_start_index : T) : Except String T :=
  -- line 176 / line 179: defaults, both from the query exactly as passed
  let value0 := value.getD query
  let identity0 := identity.getD query
  -- lines 181-182
  let query1 := match query_pos with
    | some p => o.add query p
    | none => query
  -- lines 183-186
  let query2 := if batch_first then query1 else o.permute102 query1
  let value1 := if batch_first then value0 else o.permute102 value0
  let _bs := o.batchSize value1
  -- line 190
  if o.spatialSumMatches spatial_shapes value1 = false then
    .error "AssertionError: spatial shapes do not sum to num_value"
  else
    -- lines 192-198
    let lack : ℤ := (nbq : ℤ) - (_bs : ℤ)
    let query3 :=
      if lack = 0 ∧ 1 < _bs then o.catLast (o.dropLastBatch value1) query2
      else if lack = 1 then o.catLast (o.firstSliceRepeat lack value1) query2
      else query2
    -- lines 201-204
    let value2 := o.catBatch (o.newZerosLikeBatch lack value1) value1
    let refp1 := o.catBatch (o.newZerosLikeRef lack reference_points) reference_points
    -- lines 207-208
    let mask := o.newMask nbq lack
    -- lines 209-214
    let value3 := o.valueProj value2
    let value4 := match key_padding_mask with
      | some m => o.maskedFill value3 m
      | none => value3
    let value5 := o.viewValueHeads value4
    -- lines 217-224
    let query4 := o.queryToSpatial query3 spatial_shapes
    let offs1 := o.offsetsPermuteView (o.samplingOffsetsConv query4)
    let query5 := o.spatialToFlat query4
    -- lines 225-238
    let aw1 := o.weightsView6 (o.softmaxMinus1 (o.attentionWeightsLinear query5))
    let aw2 := o.weightsQueueMerge aw1
    let offs2 := o.offsetsQueueMerge offs1
    -- lines 240-254
    match (if o.lastDim refp1 = 2 then
             .ok (o.locationsFrom2 refp1 offs2 (o.stackNormalizer spatial_shapes))
           else if o.lastDim refp1 = 4 then
             .ok (o.locationsFrom4 refp1 offs2)
           else
             (.error "ValueError: last dim of reference_points must be 2 or 4"
               : Except String T)) with
    | .error msg => .error msg
    | .ok sl =>
      -- lines 255-267
      let out1 := o.msDeformAttn value5 spatial_shapes level_start_index sl aw2
      -- lines 268-270
      let out2 := o.combineMask out1 mask
      -- line 272
      let out3 := o.outputProj out2
      -- lines 274-276
      let out4 := if batch_first then out3 else o.permute102 out3
      -- line 278
      .ok (o.add (o.dropoutLayer out4) identity0)

def offsetsWeightsOf {T : Type} (nbq : ℕ) (batch_first : Bool) (o : TensorOps T)
    (query : T) (value query_pos : Option T) (spatial_shapes : T) : T × T :=
  let value0 := value.getD query
  let query1 := match query_pos with
    | some p => o.add query p
    | none => query
  let query2 := if batch_first then query1 else o.permute102 query1
  let value1 := if batch_first then value0 else o.permute102 value0
  let _bs := o.batchSize value1
  let lack : ℤ := (nbq : ℤ) - (_bs : ℤ)
  let query3 :=
    if lack = 0 ∧ 1 < _bs then o.catLast (o.dropLastBatch value1) query2
    else if lack = 1 then o.catLast (o.firstSliceRepeat lack value1) query2
    else query2
  let query4 := o.queryToSpatial query3 spatial_shapes
  let offs1 := o.offsetsPermuteView (o.samplingOffsetsConv query4)
  let query5 := o.spatialToFlat query4
  let aw1 := o.weightsView6 (o.softmaxMinus1 (o.attentionWeightsLinear query5))
  (o.offsetsQueueMerge offs1, o.weightsQueueMerge aw1)

/-- Trivial instantiation of the abstract tensor operations over ℕ, used
to evaluate the dataflow transcription on concrete inputs. -/
def trivialOps : TensorOps ℕ where
  add := fun a b => a + b
  permute102 := id
  batchSize := fun _ => 1
  spatialSumMatches := fun _ _ => true
  catLast := fun a b => a + b
  dropLastBatch := id
  firstSliceRepeat := fun _ t => t
  newZerosLikeBatch := fun _ _ => 0
  newZerosLikeRef := fun _ _ => 0
  catBatch := fun a b => a + b
  newMask := fun _ _ => 0
  valueProj := id
  maskedFill := fun a _ => a
  viewValueHeads := id
  queryToSpatial := fun a _ => a
  samplingOffsetsConv := id
  offsetsPermuteView := id
  spatialToFlat := id
  attentionWeightsLinear := id
  softmaxMinus1 := id
  weightsView6 := id
  weightsQueueMerge := id
  offsetsQueueMerge := id
  lastDim := fun _ => 2
  stackNormalizer := id
  locationsFrom2 := fun a b c => a + b + c
  locationsFrom4 := fun a b => a + b
  msDeformAttn := fun a b c d f => a + b + c + d + f
  combineMask := fun a b => a + b
  outputProj := id
  dropoutLayer := id

/-! ## Helper lemmas -/

theorem softmaxLast_sum_one (ef : ℚ → ℚ) (hpos : ∀ x, 0 < ef x) {n : ℕ}
    (hn : 0 < n) (x : Fin n → ℚ) : ∑ i, softmaxLast ef x i = 1 := by
  have hne : Nonempty (Fin n) := ⟨⟨0, hn⟩⟩
  have hd : 0 < ∑ j, ef (x j) :=
    Finset.sum_pos (fun j _ => hpos (x j)) Finset.univ_nonempty
  unfold softmaxLast
  rw [← Finset.sum_div]
  exact div_self (ne_of_gt hd)

theorem bevMask_sum (nbq lack : ℕ) :
    ∑ s : Fin nbq, bevMask nbq lack s = ((nbq - lack : ℕ) : ℚ) := by
  unfold bevMask
  rw [Fin.sum_univ_eq_sum_range (fun i => if i < lack then (0 : ℚ) else 1) nbq]
  induction nbq with
  | zero => simp
  | succ n ih =>
    rw [Finset.sum_range_succ, ih]
    by_cases h : n < lack
    · have h1 : n - lack = 0 := by omega
      have h2 : n + 1 - lack = 0 := by omega
      simp [h, h1, h2]
    · have h2 : n + 1 - lack = (n - lack) + 1 := by omega
      rw [if_neg h, h2]
      push_cast
      ring

theorem ok_of_ite {α : Type} {cnd : Prop} [Decidable cnd] {msg : String}
    {rest : Except String α} {s : α}
    (h : (if cnd then Except.error msg else rest) = .ok s) : rest = .ok s := by
  split at h
  · exact Except.noConfusion h
  · exact h

theorem ok_of_ite_cond {α : Type} {cnd : Prop} [Decidable cnd] {msg : String}
    {rest : Except String α} {s : α}
    (h : (if cnd then Except.error msg else rest) = .ok s) :
    ¬ cnd ∧ rest = .ok s := by
  split at h
  · exact Except.noConfusion h
  next hc => exact ⟨hc, h⟩

theorem broadcastDim_cases {a b cc : ℕ} (h : broadcastDim a b = some cc) :
    (cc = a ∧ cc = b) ∨ (a = 1 ∧ cc = b) ∨ (b = 1 ∧ cc = a) := by
  unfold broadcastDim at h
  split at h
  · rename_i hab
    injection h with h
    exact Or.inl ⟨h.symm, by omega⟩
  · split at h
    · rename_i h1
      injection h with h
      exact Or.inr (Or.inl ⟨h1, h.symm⟩)
    · split at h
      · rename_i h1
        injection h with h
        exact Or.inr (Or.inr ⟨h1, h.symm⟩)
      · exact Option.noConfusion h

theorem broadcast3_self (sh : Shape3) : broadcast3 sh sh = some sh := by
  unfold broadcast3 broadcastDim
  simp

/-- If the padded query width `d + q2` (or the unpadded width `q2`)
equals the convolution input width `e * nbq` while the original query
width `q2` is 1 and the value width `d` equals `e`, then `e = 1`. -/
theorem embedWidthOne (e nbq d q2 : ℕ) (hd : d = e)
    (hcat : d + q2 = e * nbq ∨ q2 = e * nbq) (hq2 : q2 = 1) : e = 1 := by
  subst hd
  subst hq2
  rcases hcat with h | h
  · have hdvd := Nat.dvd_sub' (dvd_mul_right d nbq) (dvd_refl d)
    have heq : d * nbq - d = 1 := by omega
    rw [heq] at hdvd
    exact Nat.dvd_one.mp hdvd
  · exact Nat.dvd_one.mp ⟨nbq, h⟩

/-- Supplying the query itself as query_pos (any same-shaped positional
encoding) leaves the shape pipeline unchanged, since broadcasting a
shape with itself is the identity. -/
theorem forwardShape_somePos (c : AttnCfg) (bf : Bool) (query : Shape3)
    (value identity : Option Shape3) (kpm : Option (ℕ × ℕ))
    (refp : Shape4) (ss : List (ℕ × ℕ)) :
    forwardShape c bf query value identity (some query) kpm refp ss
      = forwardShape c bf query value identity none kpm refp ss := by
  simp only [forwardShape, broadcast3_self]

theorem c5_aux (c : AttnCfg) (bf : Bool) (q0 q1 q2 : ℕ)
    (value identity : Option Shape3) (kpm : Option (ℕ × ℕ))
    (refp : Shape4) (ss : List (ℕ × ℕ)) (s : Shape3)
    (hid : identity = none ∨ identity = some (q0, q1, q2))
    (h : forwardShape c bf (q0, q1, q2) value identity none kpm refp ss = .ok s) :
    s = (q0, q1, q2) := by
  have hidg : identity.getD (q0, q1, q2) = (q0, q1, q2) := by
    rcases hid with rfl | rfl <;> rfl
  set vv := value.getD (q0, q1, q2) with hvv
  clear_value vv
  obtain ⟨v0, v1, v2⟩ := vv
  simp only [forwardShape, hidg] at h
  simp only [← hvv] at h
  cases bf
  case false =>
    simp only [Bool.false_eq_true, ite_false, perm102] at h
    replace h := ok_of_ite h
    rcases hcat : (if c.num_bev_queue = v1 ∧ 1 < v1 then
        if v1 - 1 = q1 ∧ v0 = q0 then some (v2 + q2) else none
      else if v1 + 1 = c.num_bev_queue then
        if v1 ⊓ 1 = q1 ∧ v0 = q0 then some (v2 + q2) else none
      else some q2) with _ | dims2
    · rw [hcat] at h
      exact Except.noConfusion h
    · rw [hcat] at h
      simp only [] at h
      replace h := ok_of_ite h
      have hde := (ok_of_ite_cond h).1
      replace h := ok_of_ite h
      replace h := ok_of_ite h
      replace h := ok_of_ite h
      replace h := ok_of_ite h
      rcases ss with _ | ⟨⟨h0, w0⟩, tail⟩
      · exact Except.noConfusion h
      · simp only [] at h
        replace h := ok_of_ite h
        have hconv := (ok_of_ite_cond h).1
        replace h := ok_of_ite h
        split at h
        next msg heqsl => exact Except.noConfusion h
        next L heqsl =>
        replace h := ok_of_ite h
        cases hb : broadcast3 (q0, 1, c.embed_dims) (q0, q1, q2) with
        | none =>
          rw [hb] at h
          exact Except.noConfusion h
        | some fin =>
          rw [hb] at h
          simp only [Except.ok.injEq] at h
          subst h
          unfold broadcast3 at hb
          cases hba : broadcastDim q0 q0 with
          | none => rw [hba] at hb; exact Option.noConfusion hb
          | some a =>
          cases hbb : broadcastDim 1 q1 with
          | none => rw [hba, hbb] at hb; exact Option.noConfusion hb
          | some b =>
          cases hbc : broadcastDim c.embed_dims q2 with
          | none => rw [hba, hbb, hbc] at hb; exact Option.noConfusion hb
          | some cc =>
            rw [hba, hbb, hbc] at hb
            simp only [Option.some.injEq] at hb
            subst hb
            have hca := broadcastDim_cases hba
            have hcb := broadcastDim_cases hbb
            have hcc := broadcastDim_cases hbc
            have hdims : dims2 = v2 + q2 ∨ dims2 = q2 := by
              split at hcat
              · split at hcat
                · exact Or.inl (by injection hcat with hh; omega)
                · exact Option.noConfusion hcat
              · split at hcat
                · split at hcat
                  · exact Or.inl (by injection hcat with hh; omega)
                  · exact Option.noConfusion hcat
                · exact Or.inr (by injection hcat with hh; omega)
            have ha : a = q0 := by omega
            have hbq : b = q1 := by omega
            have hc : cc = q2 := by
              rcases hcc with ⟨h1, h2⟩ | ⟨h1, h2⟩ | ⟨h1, h2⟩
              · omega
              · omega
              · have he1 : c.embed_dims = 1 := by
                  rcases hdims with hD | hD
                  · exact embedWidthOne c.embed_dims c.num_bev_queue v2 q2
                      (by omega) (Or.inl (by omega)) h1
                  · exact embedWidthOne c.embed_dims c.num_bev_queue v2 q2
                      (by omega) (Or.inr (by omega)) h1
                omega
            simp [ha, hbq, hc]
  case true =>
    simp only [ite_true, perm102] at h
    replace h := ok_of_ite h
    rcases hcat : (if c.num_bev_queue = v0 ∧ 1 < v0 then
        if v0 - 1 = q0 ∧ v1 = q1 then some (v2 + q2) else none
      else if v0 + 1 = c.num_bev_queue then
        if v0 ⊓ 1 = q0 ∧ v1 = q1 then some (v2 + q2) else none
      else some q2) with _ | dims2
    · rw [hcat] at h
      exact Except.noConfusion h
    · rw [hcat] at h
      simp only [] at h
      replace h := ok_of_ite h
      have hde := (ok_of_ite_cond h).1
      replace h := ok_of_ite h
      replace h := ok_of_ite h
      replace h := ok_of_ite h
      replace h := ok_of_ite h
      rcases ss with _ | ⟨⟨h0, w0⟩, tail⟩
      · exact Except.noConfusion h
      · simp only [] at h
        replace h := ok_of_ite h
        have hconv := (ok_of_ite_cond h).1
        replace h := ok_of_ite h
        split at h
        next msg heqsl => exact Except.noConfusion h
        next L heqsl =>
        replace h := ok_of_ite h
        cases hb : broadcast3 (1, q1, c.embed_dims) (q0, q1, q2) with
        | none =>
          rw [hb] at h
          exact Except.noConfusion h
        | some fin =>
          rw [hb] at h
          simp only [Except.ok.injEq] at h
          subst h
          unfold broadcast3 at hb
          cases hba : broadcastDim 1 q0 with
          | none => rw [hba] at hb; exact Option.noConfusion hb
          | some a =>
          cases hbb : broadcastDim q1 q1 with
          | none => rw [hba, hbb] at hb; exact Option.noConfusion hb
          | some b =>
          cases hbc : broadcastDim c.embed_dims q2 with
          | none => rw [hba, hbb, hbc] at hb; exact Option.noConfusion hb
          | some cc =>
            rw [hba, hbb, hbc] at hb
            simp only [Option.some.injEq] at hb
            subst hb
            have hca := broadcastDim_cases hba
            have hcb := broadcastDim_cases hbb
            have hcc := broadcastDim_cases hbc
            have hdims : dims2 = v2 + q2 ∨ dims2 = q2 := by
              split at hcat
              · split at hcat
                · exact Or.inl (by injection hcat with hh; omega)
                · exact Option.noConfusion hcat
              · split at hcat
                · split at hcat
                  · exact Or.inl (by injection hcat with hh; omega)
                  · exact Option.noConfusion hcat
                · exact Or.inr (by injection hcat with hh; omega)
            have ha : a = q0 := by omega
            have hbq : b = q1 := by omega
            have hc : cc = q2 := by
              rcases hcc with ⟨h1, h2⟩ | ⟨h1, h2⟩ | ⟨h1, h2⟩
              · omega
              · omega
              · have he1 : c.embed_dims = 1 := by
                  rcases hdims with hD | hD
                  · exact embedWidthOne c.embed_dims c.num_bev_queue v2 q2
                      (by omega) (Or.inl (by omega)) h1
                  · exact embedWidthOne c.embed_dims c.num_bev_queue v2 q2
                      (by omega) (Or.inr (by omega)) h1
                omega
            simp [ha, hbq, hc]

theorem c7_ok_assert (c : AttnCfg) (bf : Bool) (query : Shape3)
    (value identity query_pos : Option Shape3) (kpm : Option (ℕ × ℕ))
    (refp : Shape4) (ss : List (ℕ × ℕ)) (s : Shape3)
    (h : forwardShape c bf query value identity query_pos kpm refp ss = .ok s) :
    (ss.map fun p => p.1 * p.2).sum = numValueOf bf query value := by
  unfold numValueOf
  rcases query_pos with _ | p
  · simp only [forwardShape] at h
    exact not_ne_iff.mp (ok_of_ite_cond h).1
  · simp only [forwardShape] at h
    cases hqb : broadcast3 query p with
    | none => rw [hqb] at h; exact Except.noConfusion h
    | some query1 =>
      rw [hqb] at h
      simp only [] at h
      exact not_ne_iff.mp (ok_of_ite_cond h).1

theorem c7_ok_refdim (c : AttnCfg) (bf : Bool) (query : Shape3)
    (value identity query_pos : Option Shape3) (kpm : Option (ℕ × ℕ))
    (refp : Shape4) (ss : List (ℕ × ℕ)) (s : Shape3)
    (h : forwardShape c bf query value identity query_pos kpm refp ss = .ok s) :
    refp.2.2.2 = 2 ∨ refp.2.2.2 = 4 := by
  by_cases h2 : refp.2.2.2 = 2
  · exact Or.inl h2
  by_cases h4 : refp.2.2.2 = 4
  · exact Or.inr h4
  exfalso
  rcases query_pos with _ | p
  · simp only [forwardShape] at h
    replace h := ok_of_ite h
    split at h
    next heqcat => exact Except.noConfusion h
    next dims2 heqcat =>
    replace h := ok_of_ite h
    replace h := ok_of_ite h
    replace h := ok_of_ite h
    replace h := ok_of_ite h
    replace h := ok_of_ite h
    rcases ss with _ | ⟨⟨hh0, ww0⟩, tail⟩
    · exact Except.noConfusion h
    · simp only [] at h
      replace h := ok_of_ite h
      replace h := ok_of_ite h
      split at h
      next msg heqsl => exact Except.noConfusion h
      next L heqsl =>
      rw [if_neg h2, if_neg h4] at heqsl
      exact Except.noConfusion heqsl
  · simp only [forwardShape] at h
    cases hqb : broadcast3 query p with
    | none => rw [hqb] at h; exact Except.noConfusion h
    | some query1 =>
      rw [hqb] at h
      simp only [] at h
      replace h := ok_of_ite h
      split at h
      next heqcat => exact Except.noConfusion h
      next dims2 heqcat =>
      replace h := ok_of_ite h
      replace h := ok_of_ite h
      replace h := ok_of_ite h
      replace h := ok_of_ite h
      replace h := ok_of_ite h
      rcases ss with _ | ⟨⟨hh0, ww0⟩, tail⟩
      · exact Except.noConfusion h
      · simp only [] at h
        replace h := ok_of_ite h
        replace h := ok_of_ite h
        split at h
        next msg heqsl => exact Except.noConfusion h
        next L heqsl =>
        rw [if_neg h2, if_neg h4] at heqsl
        exact Except.noConfusion heqsl

/-! ## Claims -/

/-- C1: for every valid configuration (positive level and point counts)
and every forward invocation, the attention weights produced by the
offset and weight predictor (arbitrary linear logits over the combined
level-point axis, softmax over that axis as in lines 225-227, viewed
back to separate level and point axes as in lines 229-233) sum to 1
over the combined (level, point) axis for each fixed
(query, head, queue slot); the logits vector stands for the slice of
the linear output at any fixed (query, head, queue slot).  The
exponential of the softmax is abstract, constrained only to be
strictly positive. -/
theorem c1_attention_weights_sum_one (ef : ℚ → ℚ) (hpos : ∀ x, 0 < ef x)
    (nl np : ℕ) (hnl : 0 < nl) (hnp : 0 < np) (logits : Fin (nl * np) → ℚ) :
    ∑ l, ∑ p, attnView6 nl np (softmaxLast ef logits) l p = 1 := by
  have key : ∑ l : Fin nl, ∑ p : Fin np, attnView6 nl np (softmaxLast ef logits) l p
      = ∑ k : Fin (nl * np), softmaxLast ef logits k := by
    rw [← Finset.sum_product']
    refine Fintype.sum_equiv finProdFinEquiv _ _ ?_
    intro z
    show attnView6 nl np (softmaxLast ef logits) z.1 z.2
        = softmaxLast ef logits (finProdFinEquiv z)
    unfold attnView6
    congr 1
    apply Fin.ext
    simp [finProdFinEquiv]
    ring
  rw [key]
  exact softmaxLast_sum_one ef hpos (Nat.mul_pos hnl hnp) logits

/-- C1 witness: a concrete configuration with one level and one point
and zero logits, with the abstract exponential instantiated by the
constant-one function (strictly positive). -/
theorem c1_witness :
    (∀ x : ℚ, 0 < (fun _ : ℚ => (1 : ℚ)) x) ∧ 0 < 1 ∧
    ∑ l : Fin 1, ∑ p : Fin 1,
      attnView6 1 1 (softmaxLast (fun _ => 1) (fun _ => 0)) l p = 1 :=
  ⟨fun _ => one_pos, Nat.one_pos,
    c1_attention_weights_sum_one (fun _ => 1) (fun _ => one_pos) 1 1
      Nat.one_pos Nat.one_pos (fun _ => 0)⟩

/-- C2: the sampling-location computation of the source (lines 240-250)
agrees with the spec formulas for both reference-point encodings: with
2 components, location = reference point + offset / level extent where
the divisor for level l is (width_l, height_l) in (width, height)
order (the source stacks spatial_shapes[..., 1] before
spatial_shapes[..., 0]); with 4 components, location = reference xy +
(offset / num_points) * reference wh * 0.5. -/
theorem c2_sampling_locations_match_spec (npts : ℕ)
    (refp2 : ℕ → ℕ → ℕ → ℚ × ℚ) (refp4 : ℕ → ℕ → ℕ → ℚ × ℚ × ℚ × ℚ)
    (off : ℕ → ℕ → ℕ → ℕ → ℕ → ℚ × ℚ) (ss : ℕ → ℚ × ℚ) (b q h l p : ℕ) :
    samplingLocations2 refp2 off ss b q h l p
      = samplingLocationsSpec2 refp2 off ss b q h l p
    ∧ samplingLocations4 npts refp4 off b q h l p
      = samplingLocationsSpec4 npts refp4 off b q h l p :=
  ⟨rfl, rfl⟩

/-- C3: the validity mask is the all-ones vector of length
num_bev_queue with its first lack entries zeroed, its sum is
num_bev_queue - lack, the combined output is the mask-weighted sum of
the per-queue-slot outputs divided by exactly that mask sum, and with a
single real slot (num_bev_queue = lack + 1) the combined output is that
slot's output unweighted. -/
theorem c3_mask_and_aggregation (nbq lack : ℕ) (hl : lack ≤ nbq)
    (out : Fin nbq → ℕ → ℕ → ℚ) :
    (∀ s : Fin nbq, bevMask nbq lack s = if (s : ℕ) < lack then 0 else 1)
    ∧ (∑ s, bevMask nbq lack s) = ((nbq - lack : ℕ) : ℚ)
    ∧ (∀ q i, combineOutputs nbq lack out q i
        = (∑ s, out s q i * bevMask nbq lack s) / ((nbq - lack : ℕ) : ℚ))
    ∧ ((hs : nbq = lack + 1) → ∀ q i,
        combineOutputs nbq lack out q i = out ⟨lack, by omega⟩ q i) := by
  refine ⟨fun s => rfl, bevMask_sum nbq lack, ?_, ?_⟩
  · intro q i
    unfold combineOutputs
    rw [bevMask_sum]
  · intro hs q i
    subst hs
    unfold combineOutputs
    have hnum : ∑ s : Fin (lack + 1), out s q i * bevMask (lack + 1) lack s
        = out ⟨lack, Nat.lt_succ_self lack⟩ q i := by
      rw [Finset.sum_eq_single (⟨lack, Nat.lt_succ_self lack⟩ : Fin (lack + 1))]
      · simp [bevMask]
      · intro s _ hne
        have hlt : (s : ℕ) < lack := by
          have hle := Nat.lt_succ_iff.mp s.isLt
          rcases Nat.lt_or_eq_of_le hle with h | h
          · exact h
          · exact absurd (Fin.ext h) hne
        simp [bevMask, hlt]
      · intro hmem
        exact absurd (Finset.mem_univ _) hmem
    rw [hnum, bevMask_sum]
    simp

/-- C3 witness: num_bev_queue 2, lack 1, constant per-slot outputs; the
combined output equals the single real slot's output value. -/
theorem c3_witness :
    (1 : ℕ) ≤ 2 ∧ combineOutputs 2 1 (fun _ _ _ => (3 : ℚ)) 0 0 = 3 :=
  ⟨by norm_num,
    (c3_mask_and_aggregation 2 1 (by norm_num) (fun _ _ _ => 3)).2.2.2 rfl 0 0⟩

/-- C4: with lack = num_bev_queue - _bs = 1, the query-padding step
prepends exactly one replicated copy of the first value batch slice to
the query along the embedding axis (the synthesized slice is the first
real slice itself), and value and reference points are padded with one
all-zero batch slice at the front, reaching batch dimension exactly
num_bev_queue. -/
theorem c4_lack_one_padding (nbq nv d : ℕ) (v q : List (List (List ℚ)))
    (q0 : List (List ℚ)) (z : List (List (List ℚ)))
    (r : List (List (List (List ℚ))))
    (hlen : v.length + 1 = nbq) (hvne : v ≠ []) (hq : q = [q0])
    (hr : r.length = v.length) :
    padQueryQueue nbq v q = [List.zipWith (fun ra rb => ra ++ rb) v.headI q0]
    ∧ sliceFirstRepeat (nbq - v.length) v = [v.headI]
    ∧ padBatchZeros (nbq - v.length) nv d v = zeros2 nv d :: v
    ∧ (padBatchZeros (nbq - v.length) nv d v).length = nbq
    ∧ padRefZeros (nbq - v.length) z r = z :: r
    ∧ (padRefZeros (nbq - v.length) z r).length = nbq := by
  obtain ⟨a, t, rfl⟩ := List.exists_cons_of_ne_nil hvne
  have hTake : ((a :: t).take 1) = [a] := by simp
  have hlack : nbq - (a :: t).length = 1 := by
    simp only [List.length_cons] at hlen ⊢
    omega
  have hrep : sliceFirstRepeat (nbq - (a :: t).length) (a :: t) = [(a :: t).headI] := by
    rw [hlack]
    unfold sliceFirstRepeat
    simp
  refine ⟨?_, hrep, ?_, ?_, ?_, ?_⟩
  · unfold padQueryQueue
    rw [if_neg, if_pos]
    · rw [hrep, hq]
      simp [catLastAxis]
    · simp only [List.length_cons] at hlen ⊢
      omega
    · simp only [List.length_cons] at hlen ⊢
      omega
  · rw [hlack]
    simp [padBatchZeros]
  · rw [hlack]
    simp [padBatchZeros]
    simp only [List.length_cons] at hlen
    omega
  · rw [hlack]
    simp [padRefZeros]
  · rw [hlack]
    simp [padRefZeros]
    simp only [List.length_cons] at hlen hr
    omega

/-- C4 witness: one real value slice, queue length 2; the padded query
is the first value slice concatenated row-wise with the query. -/
theorem c4_witness :
    (((([[[(1 : ℚ)]]] : List (List (List ℚ))).length + 1 = 2)
      ∧ ([[[(1 : ℚ)]]] : List (List (List ℚ))) ≠ []
      ∧ ([ [[(5 : ℚ)]] ] : List (List (List ℚ))) = [[[(5 : ℚ)]]]
      ∧ ([ [[[(7 : ℚ)]]] ] : List (List (List (List ℚ)))).length
          = ([[[(1 : ℚ)]]] : List (List (List ℚ))).length))
    ∧ padQueryQueue 2 [[[(1 : ℚ)]]] [[[(5 : ℚ)]]] = [[[(1 : ℚ), 5]]] :=
  ⟨⟨rfl, by decide, rfl, rfl⟩,
    (c4_lack_one_padding 2 1 1 [[[(1 : ℚ)]]] [[[(5 : ℚ)]]] [[(5 : ℚ)]]
      [[[(0 : ℚ)]]] [ [[[(7 : ℚ)]]] ] rfl (by decide) rfl rfl).1⟩

/-- C6: with lack = 0 and _bs > 1, the query-padding step concatenates
all-but-the-last value batch slices with the query along the embedding
axis; with queue length 2 and embedding width e on both operands the
resulting rows have width 2 * e; the zero-padding step leaves value and
reference points entirely unchanged. -/
theorem c6_lack_zero_concat (nbq nv d e : ℕ) (v q : List (List (List ℚ)))
    (a b q0 : List (List ℚ)) (z : List (List (List ℚ)))
    (r : List (List (List (List ℚ))))
    (hlen : v.length = nbq) (h1 : 1 < v.length) :
    padQueryQueue nbq v q = catLastAxis v.dropLast q
    ∧ padBatchZeros (nbq - v.length) nv d v = v
    ∧ padRefZeros (nbq - v.length) z r = r
    ∧ (v = [a, b] → q = [q0] → (∀ row ∈ a, row.length = e) →
        (∀ row ∈ q0, row.length = e) →
        padQueryQueue nbq v q = [List.zipWith (fun ra rb => ra ++ rb) a q0]
        ∧ ∀ i, i < (List.zipWith (fun ra rb => ra ++ rb) a q0).length →
            ((List.zipWith (fun ra rb => ra ++ rb) a q0).getD i []).length
              = 2 * e) := by
  have hlack : nbq - v.length = 0 := by omega
  have hfirst : padQueryQueue nbq v q = catLastAxis v.dropLast q := by
    unfold padQueryQueue
    rw [if_pos]
    exact ⟨by omega, h1⟩
  refine ⟨hfirst, ?_, ?_, ?_⟩
  · rw [hlack]
    simp [padBatchZeros]
  · rw [hlack]
    simp [padRefZeros]
  · intro hv hqq hae hqe
    subst hv hqq
    constructor
    · rw [hfirst]
      simp [catLastAxis]
    · intro i h
      have hz : (List.zipWith (fun ra rb : List ℚ => ra ++ rb) a q0).length
          = min a.length q0.length := List.length_zipWith ..
      have hia : i < a.length := by omega
      have hiq : i < q0.length := by omega
      rw [List.getD_eq_getElem _ _ h, List.getElem_zipWith,
        List.length_append, hae _ (List.getElem_mem hia),
        hqe _ (List.getElem_mem hiq)]
      omega

/-- C6 witness: queue length 2 with a full queue; the padded query is
the first value slice concatenated row-wise with the query, and the
padding step is the identity. -/
theorem c6_witness :
    (([[[(1 : ℚ)]], [[(2 : ℚ)]]] : List (List (List ℚ))).length = 2
      ∧ 1 < ([[[(1 : ℚ)]], [[(2 : ℚ)]]] : List (List (List ℚ))).length)
    ∧ padQueryQueue 2 [[[(1 : ℚ)]], [[(2 : ℚ)]]] [[[(3 : ℚ)]]]
        = [[[(1 : ℚ), 3]]] :=
  ⟨⟨rfl, by decide⟩,
    ((c6_lack_zero_concat 2 1 1 1 [[[(1 : ℚ)]], [[(2 : ℚ)]]] [[[(3 : ℚ)]]]
      [[(1 : ℚ)]] [[(2 : ℚ)]] [[(3 : ℚ)]] [] [] rfl (by decide)).2.2.2
      rfl rfl (by decide) (by decide)).1⟩

/-- C8 counterexample: embed_dims = -8 is divisible by num_heads = 8
(so the claim asserts construction must not raise, and since the
per-head dimension -1 is not a power of two, that at most a warning is
emitted), yet construction raises the ValueError of the power-of-two
guard on negative input. -/
theorem c8_counterexample :
    initTemporalSelfAttentionV2 (-8) 8
      = .error "ValueError: invalid input for power-of-two check"
    ∧ (8 : ℤ) ∣ (-8) :=
  ⟨rfl, ⟨-1, by norm_num⟩⟩

/-- C8 (amended): for nonnegative embed_dims and positive num_heads,
construction raises exactly when embed_dims is not divisible by
num_heads; when divisible, construction completes with a warning flag
that is set exactly when the per-head dimension fails the power-of-two
check. -/
theorem c8_construction_validation (embed_dims num_heads : ℤ)
    (hE : 0 ≤ embed_dims) (hH : 0 < num_heads) :
    ((∃ msg, initTemporalSelfAttentionV2 embed_dims num_heads = .error msg)
      ↔ ¬ num_heads ∣ embed_dims)
    ∧ (num_heads ∣ embed_dims →
        ∃ warn, initTemporalSelfAttentionV2 embed_dims num_heads = .ok warn
          ∧ (warn = true
              ↔ isPowerOfTwoCheck (Int.fdiv embed_dims num_heads) = .ok false)) := by
  have hH0 : num_heads ≠ 0 := ne_of_gt hH
  have hfd : 0 ≤ Int.fdiv embed_dims num_heads := Int.fdiv_nonneg hE (le_of_lt hH)
  have hchk : isPowerOfTwoCheck (Int.fdiv embed_dims num_heads)
      = .ok (decide (Int.fdiv embed_dims num_heads ≠ 0)
          && decide (Nat.land (Int.fdiv embed_dims num_heads).toNat
              ((Int.fdiv embed_dims num_heads).toNat - 1) = 0)) := by
    unfold isPowerOfTwoCheck
    rw [if_neg (by omega)]
  by_cases hdvd : num_heads ∣ embed_dims
  · have hmod : embed_dims % num_heads = 0 := Int.emod_eq_zero_of_dvd hdvd
    constructor
    · constructor
      · intro ⟨msg, hmsg⟩
        unfold initTemporalSelfAttentionV2 at hmsg
        rw [if_neg hH0, if_neg (by simp [hmod]), hchk] at hmsg
        exact Except.noConfusion hmsg
      · intro hc
        exact absurd hdvd hc
    · intro _
      refine ⟨!(decide (Int.fdiv embed_dims num_heads ≠ 0)
          && decide (Nat.land (Int.fdiv embed_dims num_heads).toNat
              ((Int.fdiv embed_dims num_heads).toNat - 1) = 0)), ?_, ?_⟩
      · unfold initTemporalSelfAttentionV2
        rw [if_neg hH0, if_neg (by simp [hmod]), hchk]
      · rw [hchk]
        cases hB : (decide (Int.fdiv embed_dims num_heads ≠ 0)
            && decide (Nat.land (Int.fdiv embed_dims num_heads).toNat
                ((Int.fdiv embed_dims num_heads).toNat - 1) = 0)) <;>
          simp
  · have hmod : embed_dims % num_heads ≠ 0 := fun hc =>
      hdvd (Int.dvd_of_emod_eq_zero hc)
    constructor
    · constructor
      · intro _
        exact hdvd
      · intro _
        refine ⟨"ValueError: embed_dims must be divisible by num_heads", ?_⟩
        unfold initTemporalSelfAttentionV2
        rw [if_neg hH0, if_pos hmod]
    · intro hc
      exact absurd hc hdvd

/-- C8 witness: embed_dims 24, num_heads 8, per-head dimension 3 (not a
power of two): construction completes and the warning flag is set. -/
theorem c8_witness :
    ((0 : ℤ) ≤ 24 ∧ (0 : ℤ) < 8 ∧ (8 : ℤ) ∣ 24)
    ∧ initTemporalSelfAttentionV2 24 8 = .ok true := by
  refine ⟨⟨by norm_num, by norm_num, ⟨3, by norm_num⟩⟩, ?_⟩
  obtain ⟨warn, hw, hiff⟩ :=
    (c8_construction_validation 24 8 (by norm_num) (by norm_num)).2
      ⟨3, by norm_num⟩
  rw [hw, hiff.mpr rfl]

/-- C10: with no identity supplied, the forward result is the same as
with the original query (exactly as passed, before the positional
encoding is added and before any queue concatenation or padding)
supplied as identity; and two invocations differing only in query_pos
but computing equal sampling offsets and attention weights produce
identical results, so query_pos influences the outcome only through the
offset and weight computation, never through the residual term. -/
theorem c10_residual_uses_original_query {T : Type} (nbq : ℕ) (bf : Bool)
    (o : TensorOps T) (query : T) (value query_pos key_padding_mask : Option T)
    (reference_points spatial_shapes level_start_index : T) :
    forwardDataflow nbq bf o query value none query_pos key_padding_mask
        reference_points spatial_shapes level_start_index
      = forwardDataflow nbq bf o query value (some query) query_pos
          key_padding_mask reference_points spatial_shapes level_start_index
    ∧ ∀ (identity pos1 pos2 : Option T),
        offsetsWeightsOf nbq bf o query value pos1 spatial_shapes
          = offsetsWeightsOf nbq bf o query value pos2 spatial_shapes →
        forwardDataflow nbq bf o query value identity pos1 key_padding_mask
            reference_points spatial_shapes level_start_index
          = forwardDataflow nbq bf o query value identity pos2
              key_padding_mask reference_points spatial_shapes
              level_start_index := by
  constructor
  · rfl
  · intro identity pos1 pos2 h
    simp only [offsetsWeightsOf, Prod.mk.injEq] at h
    obtain ⟨h1, h2⟩ := h
    simp only [forwardDataflow]
    rw [h1, h2]

/-- C10 witness: the trivial tensor-operation instantiation over ℕ with
equal positional encodings on both sides. -/
theorem c10_witness :
    offsetsWeightsOf 2 false trivialOps 5 none none 7
      = offsetsWeightsOf 2 false trivialOps 5 none none 7
    ∧ forwardDataflow 2 false trivialOps 5 none none none none 3 7 9
      = forwardDataflow 2 false trivialOps 5 none none none none 3 7 9 :=
  ⟨rfl,
    (c10_residual_uses_original_query 2 false trivialOps 5 none none none
      3 7 9).2 none none none rfl⟩

/-- C5 counterexample: a forward invocation that the shape pipeline
accepts, where query_pos is supplied with a broadcastable but larger
shape than the query: query (1, 1, 2) in (num_query, batch, embed)
layout, query_pos (4, 1, 2), value (4, 1, 2), reference points
(1, 4, 1, 2), one level of spatial shape (2, 2), configuration
embed_dims 2, one head, one level, one point, queue length 2.  The
returned shape is (4, 1, 2), not the input query shape (1, 1, 2). -/
theorem c5_counterexample :
    forwardShape ⟨2, 1, 1, 1, 2⟩ false (1, 1, 2) (some (4, 1, 2)) none
        (some (4, 1, 2)) none (1, 4, 1, 2) [(2, 2)] = .ok (4, 1, 2)
    ∧ ((4, 1, 2) : Shape3) ≠ (1, 1, 2) :=
  ⟨rfl, by decide⟩

/-- C5 (amended): for every invocation the shape pipeline accepts in
which query_pos and identity, when supplied, have the same shape as the
query (as the docstring of forward prescribes), the returned shape
equals the input query shape: all internal padding and permutations are
undone and the caller axis convention is restored. -/
theorem c5_output_shape_roundtrip (c : AttnCfg) (bf : Bool) (query : Shape3)
    (value identity query_pos : Option Shape3) (kpm : Option (ℕ × ℕ))
    (refp : Shape4) (ss : List (ℕ × ℕ)) (s : Shape3)
    (hpos : query_pos = none ∨ query_pos = some query)
    (hid : identity = none ∨ identity = some query)
    (h : forwardShape c bf query value identity query_pos kpm refp ss = .ok s) :
    s = query := by
  obtain ⟨q0, q1, q2⟩ := query
  rcases hpos with rfl | rfl
  · exact c5_aux c bf q0 q1 q2 value identity kpm refp ss s hid h
  · rw [forwardShape_somePos] at h
    exact c5_aux c bf q0 q1 q2 value identity kpm refp ss s hid h

/-- C5 witness: an accepted invocation (query (4, 1, 2), value
(4, 1, 2), lack 1, queue length 2) whose output shape equals the query
shape. -/
theorem c5_witness :
    ((none : Option Shape3) = none ∨ (none : Option Shape3) = some (4, 1, 2))
    ∧ ((none : Option Shape3) = none ∨ (none : Option Shape3) = some (4, 1, 2))
    ∧ forwardShape ⟨2, 1, 1, 1, 2⟩ false (4, 1, 2) (some (4, 1, 2)) none none none
        (1, 4, 1, 2) [(2, 2)] = .ok (4, 1, 2)
    ∧ ((4, 1, 2) : Shape3) = (4, 1, 2) :=
  ⟨Or.inl rfl, Or.inl rfl, rfl,
    c5_output_shape_roundtrip ⟨2, 1, 1, 1, 2⟩ false (4, 1, 2) (some (4, 1, 2))
      none none none (1, 4, 1, 2) [(2, 2)] (4, 1, 2) (Or.inl rfl) (Or.inl rfl) rfl⟩

/-- C7: the forward pass fails (returns no shape, i.e. raises) whenever
the level sizes do not sum to num_value, and whenever the last
dimension of the reference points is neither 2 nor 4; the model raises
the AssertionError of line 190 in the first case and, when everything
before the branch of lines 240-254 is accepted, the ValueError of
lines 251-254 in the second. -/
theorem c7_shape_contract_fail_fast (c : AttnCfg) (bf : Bool) (query : Shape3)
    (value identity query_pos : Option Shape3) (kpm : Option (ℕ × ℕ))
    (refp : Shape4) (ss : List (ℕ × ℕ))
    (hbad : (ss.map fun p => p.1 * p.2).sum ≠ numValueOf bf query value
        ∨ (refp.2.2.2 ≠ 2 ∧ refp.2.2.2 ≠ 4)) :
    (forwardShape c bf query value identity query_pos kpm refp ss).isOk = false := by
  cases hres : forwardShape c bf query value identity query_pos kpm refp ss with
  | error msg => rfl
  | ok s =>
    exfalso
    rcases hbad with hbad | ⟨h2, h4⟩
    · exact hbad (c7_ok_assert c bf query value identity query_pos kpm refp ss s hres)
    · rcases c7_ok_refdim c bf query value identity query_pos kpm refp ss s hres
        with hh | hh
      · exact h2 hh
      · exact h4 hh

/-- C7 witness: a single level of shape (1, 1), so the level sizes sum
to 1 while num_value is 4; the forward pass fails. -/
theorem c7_witness :
    (([((1 : ℕ), (1 : ℕ))].map fun p => p.1 * p.2).sum
        ≠ numValueOf false (4, 1, 2) (some (4, 1, 2))
      ∨ (((1 : ℕ), (4 : ℕ), (1 : ℕ), (2 : ℕ)) : Shape4).2.2.2 ≠ 2
          ∧ (((1 : ℕ), (4 : ℕ), (1 : ℕ), (2 : ℕ)) : Shape4).2.2.2 ≠ 4)
    ∧ (forwardShape ⟨2, 1, 1, 1, 2⟩ false (4, 1, 2) (some (4, 1, 2)) none none none
        (1, 4, 1, 2) [(1, 1)]).isOk = false :=
  ⟨Or.inl (by decide),
    c7_shape_contract_fail_fast ⟨2, 1, 1, 1, 2⟩ false (4, 1, 2) (some (4, 1, 2))
      none none none (1, 4, 1, 2) [(1, 1)] (Or.inl (by decide))⟩

/-- C9 counterexample: an invocation with an empty value batch
(_bs = 0, so lack = num_bev_queue = 2, every temporal slot padded) that
the forward pass accepts and completes: query (4, 1, 2) with
embed_dims 1 (the query width 2 equals embed_dims times queue length,
so the convolution accepts it), value (4, 0, 1), reference points with
batch 0.  The call does not raise, the validity mask sums to 0, and the
aggregation divides by that sum with no guard. -/
theorem c9_counterexample :
    forwardShape ⟨1, 1, 1, 1, 2⟩ false (4, 1, 2) (some (4, 0, 1)) none none none
        (0, 4, 1, 2) [(2, 2)] = .ok (4, 1, 2)
    ∧ (∑ s : Fin 2, bevMask 2 2 s) = 0 :=
  ⟨rfl, by simp [Fin.sum_univ_two, bevMask]⟩

/-- C9 (amended): in the degenerate case lack = num_bev_queue the
validity mask sums to 0 for every queue length, the aggregation divides
by exactly that sum with no guard, and the forward call does not
necessarily raise: there are accepted invocations with an empty value
batch that reach the division and return. -/
theorem c9_division_unguarded :
    (∀ nbq : ℕ, (∑ s : Fin nbq, bevMask nbq nbq s) = 0)
    ∧ forwardShape ⟨1, 1, 1, 1, 2⟩ false (1, 1, 2) (some (1, 0, 1)) none none none
        (0, 1, 1, 2) [(1, 1)] = .ok (1, 1, 2)
    ∧ ∀ (out : Fin 2 → ℕ → ℕ → ℚ) (q i : ℕ),
        combineOutputs 2 2 out q i
          = (∑ s, out s q i * bevMask 2 2 s) / (∑ s, bevMask 2 2 s) := by
  refine ⟨?_, rfl, fun out q i => rfl⟩
  intro nbq
  rw [bevMask_sum]
  simp
